import Mathlib

/-!
Shallow embedding of the energy_comparator program (src/src/main.rs).

Modelling choices:
- The `f32` money and energy amounts are embedded as exact rationals `ℚ`;
  the decimal rate constants of the source are exact in `ℚ`.
- `chrono::NaiveTime` values are embedded as seconds since midnight (`Nat`);
  the source only compares times of the same day, and `chrono` orders
  `NaiveTime` by seconds since midnight, so `Nat` order is faithful.
- `chrono::NaiveDateTime` is embedded by the two projections the pricing
  code uses: `time()` and `weekday()`.
- The `MPRN` and meter-serial string fields of `SmartMeterData` are omitted:
  no pricing or folding code reads them.
- The abort in `standing_charge_per_number_of_days` (taken when
  `standing_charge_per_day` returns a Credit) is embedded as `Option`,
  with `none` for the aborting branch.
-/

/-- Direction of a smart-meter reading (enum SmartMeterDataType). -/
inductive SmartMeterDataType where
  | ActiveImport
  | ActiveExport
deriving DecidableEq, Repr

/-- Day of week, as used by chrono::Weekday. -/
inductive Weekday where
  | Mon | Tue | Wed | Thu | Fri | Sat | Sun
deriving DecidableEq, Repr

/-- The projections of chrono::NaiveDateTime used by the pricing code:
local time of day (seconds since midnight) and day of week. -/
structure NaiveDateTime where
  time : Nat
  weekday : Weekday
deriving DecidableEq, Repr

/-- Seconds since midnight for hour h, minute m, second s
(chrono NaiveTime::from_hms_opt). -/
def mk_time (h m s : Nat) : Nat := (h * 60 + m) * 60 + s

/-- One meter reading (struct SmartMeterData), identifier strings omitted. -/
structure SmartMeterData where
  read_value : ℚ
  read_type : SmartMeterDataType
  read_data_and_end_time : NaiveDateTime
deriving DecidableEq, Repr

/-- A signed monetary entry (enum EnergyBillEntry). -/
inductive EnergyBillEntry where
  | Credit (amount : ℚ)
  | Debit (amount : ℚ)
deriving DecidableEq, Repr

/-- The netting combination (impl Add for EnergyBillEntry). -/
def EnergyBillEntry.add (self rhs : EnergyBillEntry) : EnergyBillEntry :=
  match self, rhs with
  | .Debit self_value, .Debit rhs_value => .Debit (self_value + rhs_value)
  | .Credit self_value, .Credit rhs_value => .Credit (self_value + rhs_value)
  | .Credit self_value, .Debit rhs_value =>
      if self_value > rhs_value then .Credit (self_value - rhs_value)
      else .Debit (rhs_value - self_value)
  | .Debit self_value, .Credit rhs_value =>
      if rhs_value > self_value then .Credit (rhs_value - self_value)
      else .Debit (self_value - rhs_value)

instance : Add EnergyBillEntry := ⟨EnergyBillEntry.add⟩

/-- The magnitude stored in an entry. -/
def EnergyBillEntry.amount : EnergyBillEntry → ℚ
  | .Credit a => a
  | .Debit a => a

/-- The three tariff plans implementing PricePlanStrategy. -/
inductive Plan where
  | ElectricIrelandHomeElectric14
  | SSEAirtricity20
  | BordGaisEnergy25WeekendFree
deriving DecidableEq, Repr

/-- The weekday list WEEKDAYS of BordGaisEnergy25WeekendFree. -/
def WEEKDAYS : List Weekday := [.Mon, .Tue, .Wed, .Thu, .Fri]

/-- price_for_singe_period of each plan, translated branch for branch.
Time constants are inlined: PEAK (17:00, 19:00], NIGHT start 23:00 and
end 08:00, and for BordGais the FREE window (09:00, 18:00]. -/
def price_for_singe_period (p : Plan) (datapoint : SmartMeterData) : EnergyBillEntry :=
  match p with
  | .ElectricIrelandHomeElectric14 =>
      match datapoint.read_type with
      | .ActiveImport => .Debit (0.3895 * (1 - 0.14) * datapoint.read_value)
      | .ActiveExport => .Credit (0.21 * datapoint.read_value)
  | .SSEAirtricity20 =>
      match datapoint.read_type with
      | .ActiveImport =>
          if datapoint.read_data_and_end_time.time > mk_time 17 0 0
              ∧ datapoint.read_data_and_end_time.time ≤ mk_time 19 0 0 then
            .Debit (0.4882 * (1 - 0.20) * datapoint.read_value)
          else if datapoint.read_data_and_end_time.time > mk_time 23 0 0
              ∧ datapoint.read_data_and_end_time.time ≤ mk_time 8 0 0 then
            .Debit (0.2506 * (1 - 0.20) * datapoint.read_value)
          else
            .Debit (0.3865 * (1 - 0.20) * datapoint.read_value)
      | .ActiveExport => .Credit (0.24 * datapoint.read_value)
  | .BordGaisEnergy25WeekendFree =>
      match datapoint.read_type with
      | .ActiveImport =>
          if datapoint.read_data_and_end_time.weekday = .Sun
              ∧ datapoint.read_data_and_end_time.time > mk_time 9 0 0
              ∧ datapoint.read_data_and_end_time.time ≤ mk_time 18 0 0 then
            .Debit 0
          else if datapoint.read_data_and_end_time.weekday ∈ WEEKDAYS
              ∧ datapoint.read_data_and_end_time.time > mk_time 17 0 0
              ∧ datapoint.read_data_and_end_time.time ≤ mk_time 19 0 0 then
            .Debit (0.5258 * (1 - 0.25) * datapoint.read_value)
          else if datapoint.read_data_and_end_time.time > mk_time 23 0 0
              ∧ datapoint.read_data_and_end_time.time ≤ mk_time 8 0 0 then
            .Debit (0.3163 * (1 - 0.25) * datapoint.read_value)
          else
            .Debit (0.4304 * (1 - 0.25) * datapoint.read_value)
      | .ActiveExport => .Credit (0.185 * datapoint.read_value)

/-- standing_charge_per_day of each plan. -/
def standing_charge_per_day (p : Plan) : EnergyBillEntry :=
  match p with
  | .ElectricIrelandHomeElectric14 => .Debit (272.61 / 365)
  | .SSEAirtricity20 => .Debit 0.6602
  | .BordGaisEnergy25WeekendFree => .Debit (237.56 / 365)

/-- standing_charge_per_number_of_days (trait default method); the abort on
a Credit daily charge is `none`. -/
def standing_charge_per_number_of_days (p : Plan) (days : Nat) : Option EnergyBillEntry :=
  match standing_charge_per_day p with
  | .Credit _ => none
  | .Debit day_value => some (.Debit (day_value * days))

/-- compute_total_bill_for_period: left fold of the pairwise combination
over the readings, starting from Debit(0). -/
def compute_total_bill_for_period (p : Plan) (datapoints : List SmartMeterData) :
    EnergyBillEntry :=
  datapoints.foldl (fun acc d => acc + price_for_singe_period p d) (.Debit 0)

/-- The final balance computed in main for one plan:
compute_total_bill_for_period plus the standing charge for the period
(`none` if the standing-charge contract aborts). -/
def final_bill (p : Plan) (days : Nat) (datapoints : List SmartMeterData) :
    Option EnergyBillEntry :=
  (standing_charge_per_number_of_days p days).map
    (fun sc => compute_total_bill_for_period p datapoints + sc)

/-- Signed balance of an entry: a Debit counts positively, a Credit
negatively (analysis device, not part of the source). -/
def signed_value : EnergyBillEntry → ℚ
  | .Credit a => -a
  | .Debit a => a

/-- The entry denoting a signed balance: negative balances become a Credit,
balances that are zero or positive become a Debit. -/
def of_signed (s : ℚ) : EnergyBillEntry :=
  if s < 0 then .Credit (-s) else .Debit s

/-- Normal form maintained by the fold accumulator: a Debit carries a
non-negative amount, a Credit a strictly positive one. -/
def Normalized : EnergyBillEntry → Prop
  | .Debit a => 0 ≤ a
  | .Credit a => 0 < a

/- ------------------------------------------------------------------
Helper lemmas about the combination rule.
------------------------------------------------------------------ -/

theorem add_def (a b : EnergyBillEntry) : a + b = a.add b := rfl

theorem signed_value_add (a b : EnergyBillEntry) :
    signed_value (a + b) = signed_value a + signed_value b := by
  cases a with
  | Credit x =>
    cases b with
    | Credit y => simp only [add_def, EnergyBillEntry.add, signed_value]; ring
    | Debit y =>
      simp only [add_def, EnergyBillEntry.add]
      split_ifs with h <;> simp only [signed_value] <;> ring
  | Debit x =>
    cases b with
    | Credit y =>
      simp only [add_def, EnergyBillEntry.add]
      split_ifs with h <;> simp only [signed_value] <;> ring
    | Debit y => simp only [add_def, EnergyBillEntry.add, signed_value]

theorem amount_add_nonneg {a b : EnergyBillEntry}
    (ha : 0 ≤ a.amount) (hb : 0 ≤ b.amount) : 0 ≤ (a + b).amount := by
  cases a with
  | Credit x =>
    cases b with
    | Credit y =>
      simp only [add_def, EnergyBillEntry.add, EnergyBillEntry.amount] at *; linarith
    | Debit y =>
      simp only [add_def, EnergyBillEntry.add, EnergyBillEntry.amount] at *
      split_ifs with h <;> simp only [EnergyBillEntry.amount] <;> linarith
  | Debit x =>
    cases b with
    | Credit y =>
      simp only [add_def, EnergyBillEntry.add, EnergyBillEntry.amount] at *
      split_ifs with h <;> simp only [EnergyBillEntry.amount] <;> linarith
    | Debit y =>
      simp only [add_def, EnergyBillEntry.add, EnergyBillEntry.amount] at *; linarith

theorem normalized_add {a b : EnergyBillEntry}
    (ha : Normalized a) (hb : 0 ≤ b.amount) : Normalized (a + b) := by
  cases a with
  | Credit x =>
    cases b with
    | Credit y =>
      simp only [add_def, EnergyBillEntry.add, EnergyBillEntry.amount, Normalized] at *
      linarith
    | Debit y =>
      simp only [add_def, EnergyBillEntry.add, EnergyBillEntry.amount, Normalized] at *
      split_ifs with h <;> simp only [Normalized] <;> linarith
  | Debit x =>
    cases b with
    | Credit y =>
      simp only [add_def, EnergyBillEntry.add, EnergyBillEntry.amount, Normalized] at *
      split_ifs with h <;> simp only [Normalized] <;> linarith
    | Debit y =>
      simp only [add_def, EnergyBillEntry.add, EnergyBillEntry.amount, Normalized] at *
      linarith

theorem of_signed_signed_value {e : EnergyBillEntry} (he : Normalized e) :
    of_signed (signed_value e) = e := by
  cases e with
  | Credit x =>
    simp only [Normalized] at he
    simp only [signed_value, of_signed]
    rw [if_pos (by linarith)]
    simp
  | Debit x =>
    simp only [Normalized] at he
    simp only [signed_value, of_signed]
    rw [if_neg (not_lt.mpr he)]

theorem price_amount_nonneg (p : Plan) (d : SmartMeterData)
    (hv : 0 ≤ d.read_value) : 0 ≤ (price_for_singe_period p d).amount := by
  obtain ⟨v, ty, t⟩ := d
  cases p <;> cases ty <;>
    simp only [price_for_singe_period, EnergyBillEntry.amount] <;>
    (try split_ifs) <;>
    (try norm_num) <;>
    exact hv

theorem foldl_add_spec (l : List EnergyBillEntry) (acc : EnergyBillEntry)
    (hacc : Normalized acc) (hl : ∀ e ∈ l, 0 ≤ e.amount) :
    Normalized (l.foldl (· + ·) acc) ∧
      signed_value (l.foldl (· + ·) acc) =
        signed_value acc + (l.map signed_value).sum := by
  induction l generalizing acc with
  | nil => exact ⟨hacc, by simp⟩
  | cons e t ih =>
    have he : 0 ≤ e.amount := hl e (List.mem_cons_self e t)
    have ht : ∀ x ∈ t, 0 ≤ x.amount := fun x hx => hl x (List.mem_cons_of_mem e hx)
    have h := ih (acc + e) (normalized_add hacc he) ht
    refine ⟨h.1, ?_⟩
    simp only [List.foldl_cons, List.map_cons, List.sum_cons]
    rw [h.2, signed_value_add]
    ring

theorem compute_total_eq_of_signed (p : Plan) (l : List SmartMeterData)
    (hl : ∀ d ∈ l, 0 ≤ d.read_value) :
    compute_total_bill_for_period p l =
      of_signed ((l.map (fun d => signed_value (price_for_singe_period p d))).sum) := by
  have hfold : compute_total_bill_for_period p l =
      (l.map (price_for_singe_period p)).foldl (· + ·) (.Debit 0) := by
    rw [List.foldl_map]
    rfl
  have hmem : ∀ e ∈ l.map (price_for_singe_period p), 0 ≤ e.amount := by
    intro e he
    obtain ⟨d, hd, rfl⟩ := List.mem_map.mp he
    exact price_amount_nonneg p d (hl d hd)
  have h := foldl_add_spec (l.map (price_for_singe_period p)) (.Debit 0)
    (by simp [Normalized]) hmem
  rw [hfold, ← of_signed_signed_value h.1, h.2]
  simp only [signed_value, zero_add, List.map_map]
  rfl

theorem normalized_amount_nonneg {e : EnergyBillEntry} (he : Normalized e) :
    0 ≤ e.amount := by
  cases e <;> simp only [Normalized, EnergyBillEntry.amount] at * <;> linarith

/- ------------------------------------------------------------------
Claims.
------------------------------------------------------------------ -/

/-- C1 (code-bug evidence): the night branch of the import pricing tests
`time > 23:00 AND time <= 08:00`, a conjunction no time of day satisfies,
so the night rate is never applied. Every SSEAirtricity20 import reading is
priced at the peak or the standard rate; readings at 03:00 — inside the
documented night window — get the standard rate, not the night rate, for
both the SSEAirtricity20 and the BordGaisEnergy25WeekendFree plan. -/
theorem claim_c1_night_band_dead :
    (∀ d : SmartMeterData, d.read_type = .ActiveImport →
      price_for_singe_period .SSEAirtricity20 d
          = .Debit (0.4882 * (1 - 0.20) * d.read_value)
        ∨ price_for_singe_period .SSEAirtricity20 d
          = .Debit (0.3865 * (1 - 0.20) * d.read_value))
    ∧ price_for_singe_period .SSEAirtricity20
        ⟨1, .ActiveImport, ⟨mk_time 3 0 0, .Mon⟩⟩
        = .Debit (0.3865 * (1 - 0.20) * 1)
    ∧ price_for_singe_period .BordGaisEnergy25WeekendFree
        ⟨1, .ActiveImport, ⟨mk_time 3 0 0, .Mon⟩⟩
        = .Debit (0.4304 * (1 - 0.25) * 1)
    ∧ price_for_singe_period .SSEAirtricity20
        ⟨1, .ActiveImport, ⟨mk_time 3 0 0, .Mon⟩⟩
        ≠ .Debit (0.2506 * (1 - 0.20) * 1)
    ∧ price_for_singe_period .BordGaisEnergy25WeekendFree
        ⟨1, .ActiveImport, ⟨mk_time 3 0 0, .Mon⟩⟩
        ≠ .Debit (0.3163 * (1 - 0.25) * 1) := by
  refine ⟨?_, ?_, ?_, ?_, ?_⟩
  · intro d h
    obtain ⟨v, ty, t⟩ := d
    cases ty with
    | ActiveExport => simp at h
    | ActiveImport =>
      simp only [price_for_singe_period]
      split_ifs with h1 h2
      · exact Or.inl rfl
      · exfalso; simp only [mk_time] at h2; omega
      · exact Or.inr rfl
  · norm_num [price_for_singe_period, mk_time]
  · norm_num [price_for_singe_period, mk_time, WEEKDAYS]
  · norm_num [price_for_singe_period, mk_time]
  · norm_num [price_for_singe_period, mk_time, WEEKDAYS]

theorem claim_c1_night_band_dead_witness :
    price_for_singe_period .SSEAirtricity20
        ⟨1, .ActiveImport, ⟨mk_time 3 0 0, .Mon⟩⟩
        = .Debit (0.4882 * (1 - 0.20) * 1)
      ∨ price_for_singe_period .SSEAirtricity20
        ⟨1, .ActiveImport, ⟨mk_time 3 0 0, .Mon⟩⟩
        = .Debit (0.3865 * (1 - 0.20) * 1) :=
  claim_c1_night_band_dead.1 ⟨1, .ActiveImport, ⟨mk_time 3 0 0, .Mon⟩⟩ rfl

/-- C2: for every plan, the total bill of a reading sequence (all readings
carrying the non-negative values the data model guarantees) is invariant
under permutation of the sequence: the fold outcome depends only on the
multiset of per-reading entries. -/
theorem claim_c2_perm_invariant (p : Plan) (l1 l2 : List SmartMeterData)
    (hperm : l1.Perm l2) (hval : ∀ d ∈ l1, 0 ≤ d.read_value) :
    compute_total_bill_for_period p l1 = compute_total_bill_for_period p l2 := by
  have hval2 : ∀ d ∈ l2, 0 ≤ d.read_value := fun d hd => hval d (hperm.mem_iff.mpr hd)
  rw [compute_total_eq_of_signed p l1 hval, compute_total_eq_of_signed p l2 hval2]
  exact congrArg of_signed ((hperm.map _).sum_eq)

theorem claim_c2_perm_invariant_witness :
    compute_total_bill_for_period .SSEAirtricity20
        [⟨2, .ActiveImport, ⟨mk_time 18 0 0, .Mon⟩⟩,
         ⟨1, .ActiveExport, ⟨mk_time 3 0 0, .Tue⟩⟩]
      = compute_total_bill_for_period .SSEAirtricity20
        [⟨1, .ActiveExport, ⟨mk_time 3 0 0, .Tue⟩⟩,
         ⟨2, .ActiveImport, ⟨mk_time 18 0 0, .Mon⟩⟩] :=
  claim_c2_perm_invariant .SSEAirtricity20 _ _
    (List.Perm.swap _ _ _) (by decide)

/-- C3: the combination of two entries with non-negative amounts is
commutative: same resulting tag and amount either way. -/
theorem claim_c3_add_comm (a b : EnergyBillEntry)
    (ha : 0 ≤ a.amount) (hb : 0 ≤ b.amount) : a + b = b + a := by
  cases a <;> cases b <;> simp only [add_def, EnergyBillEntry.add] <;>
    first
    | rfl
    | (congr 1; ring)

theorem claim_c3_add_comm_witness :
    EnergyBillEntry.Credit 2 + EnergyBillEntry.Debit 3
      = EnergyBillEntry.Debit 3 + EnergyBillEntry.Credit 2 :=
  claim_c3_add_comm (.Credit 2) (.Debit 3) (by decide) (by decide)

/-- C4: strict-lower/inclusive-upper band semantics for the SSEAirtricity20
peak window (17:00, 19:00]: an import reading at exactly 17:00:00 falls to
the standard rate, one at exactly 19:00:00 gets the peak rate. -/
theorem claim_c4_peak_boundaries (v : ℚ) (w : Weekday) :
    price_for_singe_period .SSEAirtricity20
        ⟨v, .ActiveImport, ⟨mk_time 17 0 0, w⟩⟩
        = .Debit (0.3865 * (1 - 0.20) * v)
    ∧ price_for_singe_period .SSEAirtricity20
        ⟨v, .ActiveImport, ⟨mk_time 19 0 0, w⟩⟩
        = .Debit (0.4882 * (1 - 0.20) * v) := by
  constructor <;> norm_num [price_for_singe_period, mk_time]

/-- C5: combining entries with non-negative amounts yields a non-negative
amount in every case; equal opposite-tag magnitudes yield Debit 0; and
every entry reachable by folding non-negative-amount entries from Debit 0
has a non-negative amount. -/
theorem claim_c5_amount_nonneg_invariant :
    (∀ a b : EnergyBillEntry, 0 ≤ a.amount → 0 ≤ b.amount → 0 ≤ (a + b).amount)
    ∧ (∀ x : ℚ,
        EnergyBillEntry.Credit x + EnergyBillEntry.Debit x = EnergyBillEntry.Debit 0
        ∧ EnergyBillEntry.Debit x + EnergyBillEntry.Credit x = EnergyBillEntry.Debit 0)
    ∧ (∀ l : List EnergyBillEntry, (∀ e ∈ l, 0 ≤ e.amount) →
        0 ≤ (l.foldl (· + ·) (EnergyBillEntry.Debit 0)).amount) := by
  refine ⟨fun a b ha hb => amount_add_nonneg ha hb, ?_, ?_⟩
  · intro x
    constructor <;> simp [add_def, EnergyBillEntry.add]
  · intro l hl
    exact normalized_amount_nonneg
      (foldl_add_spec l (.Debit 0) (by simp [Normalized]) hl).1

theorem claim_c5_amount_nonneg_invariant_witness :
    0 ≤ (EnergyBillEntry.Credit 2 + EnergyBillEntry.Debit 3).amount :=
  claim_c5_amount_nonneg_invariant.1 (.Credit 2) (.Debit 3) (by decide) (by decide)

/-- C6: for every day count and every implemented plan, the daily standing
charge is a Debit d and the period standing charge is Debit (d * n); the
aborting Credit branch is never taken. -/
theorem claim_c6_standing_charge (p : Plan) (n : Nat) :
    ∃ d : ℚ, standing_charge_per_day p = .Debit d
      ∧ standing_charge_per_number_of_days p n = some (.Debit (d * n)) := by
  cases p <;> exact ⟨_, rfl, rfl⟩

/-- C7: for BordGaisEnergy25WeekendFree, every import reading on a Sunday
with time strictly after 09:00 and at or before 18:00 is priced Debit 0,
regardless of the read value. -/
theorem claim_c7_sunday_free (d : SmartMeterData)
    (himp : d.read_type = .ActiveImport)
    (hsun : d.read_data_and_end_time.weekday = .Sun)
    (h1 : mk_time 9 0 0 < d.read_data_and_end_time.time)
    (h2 : d.read_data_and_end_time.time ≤ mk_time 18 0 0) :
    price_for_singe_period .BordGaisEnergy25WeekendFree d = .Debit 0 := by
  obtain ⟨v, ty, t⟩ := d
  cases ty with
  | ActiveExport => simp at himp
  | ActiveImport =>
    simp only [price_for_singe_period]
    rw [if_pos ⟨hsun, h1, h2⟩]

theorem claim_c7_sunday_free_witness :
    price_for_singe_period .BordGaisEnergy25WeekendFree
      ⟨5, .ActiveImport, ⟨mk_time 10 0 0, .Sun⟩⟩ = .Debit 0 :=
  claim_c7_sunday_free ⟨5, .ActiveImport, ⟨mk_time 10 0 0, .Sun⟩⟩
    rfl rfl (by decide) (by decide)

/-- C8: every export reading of value v is priced Credit (rate * v) exactly,
independent of its timestamp, with flat rate 0.21 for
ElectricIrelandHomeElectric14, 0.24 for SSEAirtricity20 and 0.185 for
BordGaisEnergy25WeekendFree. -/
theorem claim_c8_export_flat (d : SmartMeterData)
    (h : d.read_type = .ActiveExport) :
    price_for_singe_period .ElectricIrelandHomeElectric14 d
        = .Credit (0.21 * d.read_value)
    ∧ price_for_singe_period .SSEAirtricity20 d
        = .Credit (0.24 * d.read_value)
    ∧ price_for_singe_period .BordGaisEnergy25WeekendFree d
        = .Credit (0.185 * d.read_value) := by
  obtain ⟨v, ty, t⟩ := d
  cases ty with
  | ActiveImport => simp at h
  | ActiveExport => exact ⟨rfl, rfl, rfl⟩

theorem claim_c8_export_flat_witness :
    price_for_singe_period .ElectricIrelandHomeElectric14
        ⟨3, .ActiveExport, ⟨mk_time 12 0 0, .Wed⟩⟩ = .Credit (0.21 * 3)
    ∧ price_for_singe_period .SSEAirtricity20
        ⟨3, .ActiveExport, ⟨mk_time 12 0 0, .Wed⟩⟩ = .Credit (0.24 * 3)
    ∧ price_for_singe_period .BordGaisEnergy25WeekendFree
        ⟨3, .ActiveExport, ⟨mk_time 12 0 0, .Wed⟩⟩ = .Credit (0.185 * 3) :=
  claim_c8_export_flat ⟨3, .ActiveExport, ⟨mk_time 12 0 0, .Wed⟩⟩ rfl

/-- C9: for every plan, the fold over the empty reading sequence is Debit 0
and the final bill over the empty sequence is exactly the standing charge
for the period, a Debit. -/
theorem claim_c9_empty_fold (p : Plan) (n : Nat) :
    compute_total_bill_for_period p [] = .Debit 0
    ∧ final_bill p n [] = standing_charge_per_number_of_days p n
    ∧ ∃ d : ℚ, final_bill p n [] = some (.Debit d) := by
  refine ⟨rfl, ?_, ?_⟩
  · cases p <;>
      simp [final_bill, standing_charge_per_number_of_days, standing_charge_per_day,
        compute_total_bill_for_period, add_def, EnergyBillEntry.add]
  · obtain ⟨d, hd1, hd2⟩ : ∃ d : ℚ, standing_charge_per_day p = .Debit d
        ∧ standing_charge_per_number_of_days p n = some (.Debit (d * n)) := by
      cases p <;> exact ⟨_, rfl, rfl⟩
    exact ⟨d * n, by
      simp [final_bill, hd2, compute_total_bill_for_period, add_def,
        EnergyBillEntry.add]⟩

/-- C10: Debit 0 is a left identity of the combination for every entry with
strictly positive amount, but Debit 0 combine Credit 0 = Debit 0; hence the
fold over a one-reading sequence equals the price of that reading whenever
that price has positive amount, while a zero-valued export reading folds to
Debit 0, not Credit 0. -/
theorem claim_c10_debit_zero_identity :
    (∀ e : EnergyBillEntry, 0 < e.amount → EnergyBillEntry.Debit 0 + e = e)
    ∧ EnergyBillEntry.Debit 0 + EnergyBillEntry.Credit 0 = EnergyBillEntry.Debit 0
    ∧ EnergyBillEntry.Debit 0 + EnergyBillEntry.Credit 0 ≠ EnergyBillEntry.Credit 0
    ∧ (∀ (p : Plan) (d : SmartMeterData), 0 < (price_for_singe_period p d).amount →
        compute_total_bill_for_period p [d] = price_for_singe_period p d)
    ∧ (∀ (p : Plan) (t : NaiveDateTime),
        compute_total_bill_for_period p [⟨0, .ActiveExport, t⟩] = .Debit 0) := by
  have hid : ∀ e : EnergyBillEntry, 0 < e.amount → EnergyBillEntry.Debit 0 + e = e := by
    intro e he
    cases e with
    | Credit x =>
      simp only [EnergyBillEntry.amount] at he
      simp only [add_def, EnergyBillEntry.add]
      rw [if_pos he]
      norm_num
    | Debit x =>
      simp only [add_def, EnergyBillEntry.add]
      norm_num
  refine ⟨hid, ?_, ?_, ?_, ?_⟩
  · simp [add_def, EnergyBillEntry.add]
  · simp [add_def, EnergyBillEntry.add]
  · intro p d hpos
    exact hid _ hpos
  · intro p t
    cases p <;>
      simp [compute_total_bill_for_period, price_for_singe_period,
        add_def, EnergyBillEntry.add]

theorem claim_c10_debit_zero_identity_witness :
    EnergyBillEntry.Debit 0 + EnergyBillEntry.Credit 5 = EnergyBillEntry.Credit 5 :=
  claim_c10_debit_zero_identity.1 (.Credit 5) (by decide)
